import Mathlib

/-!
Verification development for the `learn-effect` repository: a sliding-window
rate limiter backed by a Redis sorted set (src/RateLimiter.ts), an HTTP
admission dispatcher with tier selection and an administrative override
bypass (server source), and an admin validation pipeline (adminHandler).

The definitions below are a shallow embedding of the TypeScript source.
Times and scores are modelled as `Int` (JavaScript millisecond timestamps;
all arithmetic in the source stays within exact integer range).  The Redis
sorted set for one key is modelled as a list of member/score entries with
Redis's inclusive `ZREMRANGEBYSCORE` range semantics and `ZADD` upsert
semantics.
-/

/-- Entry of a Redis sorted set: a member string with its score.
Corresponds to one `(timestamp, nonce)` request-log row. -/
structure ZEntry where
  member : String
  score : Int
  deriving Repr, DecidableEq

/-- Contents of one sorted-set key, ordered as a list of entries.
Members are unique in any state produced by the operations below. -/
abbrev ZSet := List ZEntry

/-- Model of `ZREMRANGEBYSCORE key min max`: Redis removes every entry whose
score lies in the closed interval `[min, max]` (both bounds inclusive for
plain numeric arguments, which is what the source passes). -/
def zremrangebyscore (s : ZSet) (min max : Int) : ZSet :=
  s.filter (fun e => !(decide (min ≤ e.score) && decide (e.score ≤ max)))

/-- Model of `ZCARD key`: the number of entries. -/
def zcard (s : ZSet) : Nat := s.length

/-- Lexicographic comparison of character lists by code point, the order
Redis uses on member strings. -/
def charsLt : List Char → List Char → Bool
  | [], [] => false
  | [], _ :: _ => true
  | _ :: _, [] => false
  | a :: as, b :: bs => a.toNat < b.toNat || (a == b && charsLt as bs)

/-- Boolean string comparison built on `charsLt`. -/
def strLtB (a b : String) : Bool := charsLt a.data b.data

/-- Boolean model of JavaScript `s.startsWith(pre)`. -/
def jsStartsWith (s pre : String) : Bool := pre.data.isPrefixOf s.data

/-- Model of JavaScript `s.substring(n)` for ASCII content. -/
def jsDrop (s : String) (n : Nat) : String := String.mk (s.data.drop n)

/-- Ordering used by Redis on sorted-set rows: by score, ties broken by the
member string. -/
def zleB (a b : ZEntry) : Bool :=
  decide (a.score < b.score) || (a.score == b.score && strLtB a.member b.member)

/-- First row of `ZRANGE key 0 0 WITHSCORES`: the entry with the least
score (ties by member), or `none` when the set is empty. -/
def zmin : ZSet → Option ZEntry
  | [] => none
  | e :: es => some (es.foldl (fun acc x => if zleB x acc then x else acc) e)

/-- Model of `ZADD key score member`: updates the score when the member is
already present, otherwise appends a fresh entry. -/
def zadd (s : ZSet) (score : Int) (member : String) : ZSet :=
  if s.any (fun e => e.member == member) then
    s.map (fun e => if e.member == member then ⟨member, score⟩ else e)
  else
    s ++ [⟨member, score⟩]

/-- State held at one Redis key: the sorted set plus the pending expiry
set by `PEXPIRE` (in milliseconds), `none` when no expiry has been set. -/
structure KeyState where
  entries : ZSet
  ttlMs : Option Int
  deriving Repr, DecidableEq

/-- Key state of a key that was never written. -/
def emptyKeyState : KeyState := ⟨[], none⟩

/-- Rate limiter construction parameters, from `RedisRateLimiterConfig`. -/
structure RateLimitConfig where
  windowMs : Int
  maxRequests : Nat
  deriving Repr, DecidableEq

/-- Failure value `RateLimitExceeded` from RateLimiter.ts: carries the
client identifier and an optional retry estimate in seconds. -/
structure RateLimitExceeded where
  clientId : String
  retryAfter : Option Int
  deriving Repr, DecidableEq

/-- Key derivation `getKey` from RateLimiter.ts. -/
def getKey (clientId : String) : String := "rate-limit:" ++ clientId

/-- Unique member `` `${now}-${Math.random()}` `` added on admission; the
random part is abstracted as a caller-supplied nonce string. -/
def mkMember (now : Int) (nonce : String) : String :=
  toString now ++ "-" ++ nonce

/-- Integer form of `Math.ceil(x / 1000)` for an integer `x`:
floor division of `x + 999` by `1000`. -/
def jsCeilDiv1000 (x : Int) : Int := Int.ediv (x + 999) 1000

/-- Purge step of `check`: `zremrangebyscore(key, 0, windowStart)` with
`windowStart = now - windowMs`. -/
def purgeExpired (windowMs now : Int) (entries : ZSet) : ZSet :=
  zremrangebyscore entries 0 (now - windowMs)

instance {ε α : Type} [DecidableEq ε] [DecidableEq α] : DecidableEq (Except ε α) := fun a b =>
  match a, b with
  | .ok x, .ok y =>
      if h : x = y then .isTrue (by rw [h]) else .isFalse (by intro hc; cases hc; exact h rfl)
  | .error x, .error y =>
      if h : x = y then .isTrue (by rw [h]) else .isFalse (by intro hc; cases hc; exact h rfl)
  | .ok _, .error _ => .isFalse (by intro hc; cases hc)
  | .error _, .ok _ => .isFalse (by intro hc; cases hc)

/-- Result of one `check` call: the outcome on the Effect error channel and
the key state left in the store. -/
structure CheckResult where
  outcome : Except RateLimitExceeded Unit
  state : KeyState
  deriving Repr, DecidableEq

/-- Model of `makeRedisRateLimiter(config).check(clientId)` at time `now`.
Steps, exactly as in RateLimiter.ts: purge entries scored in
`[0, now - windowMs]`, count the remainder; if the count reaches
`maxRequests`, read the oldest remaining row and fail with
`RateLimitExceeded` (the retry estimate is dropped when the oldest
timestamp is the falsy number `0`); otherwise add a fresh member scored
`now` and refresh the key expiry to `windowMs + 1000`. -/
def check (cfg : RateLimitConfig) (clientId : String) (now : Int) (nonce : String)
    (st : KeyState) : CheckResult :=
  let entries1 := purgeExpired cfg.windowMs now st.entries
  let count := zcard entries1
  if cfg.maxRequests ≤ count then
    let retryAfter : Option Int :=
      match zmin entries1 with
      | some oldest =>
          if oldest.score = 0 then none
          else some (max 0 (jsCeilDiv1000 (oldest.score + cfg.windowMs - now)))
      | none => none
    ⟨.error ⟨clientId, retryAfter⟩, ⟨entries1, st.ttlMs⟩⟩
  else
    ⟨.ok (), ⟨zadd entries1 now (mkMember now nonce), some (cfg.windowMs + 1000)⟩⟩

example :
    (check ⟨500, 2⟩ "c1" 1000 "a" emptyKeyState).outcome = .ok () := by decide

example :
    (check ⟨500, 1⟩ "c1" 1000 "b" ⟨[⟨"1000-a", 1000⟩], some 1500⟩).outcome
      = .error ⟨"c1", some 1⟩ := by decide

/-! Server-side model: HTTP requests and responses, CORS, the override map,
the shared store, the admission dispatcher `handleRequest` from the server
source, the admin pipeline from adminHandler, and the top-level route
dispatch from `main`'s `fetch`. -/

/-- Minimal JSON value model for parsed admin request bodies. -/
inductive Json where
  | null
  | bool (b : Bool)
  | num (n : Int)
  | str (s : String)
  | arr (elems : List Json)
  | obj (fields : List (String × Json))

/-- Helper for `String.includes`: does the needle occur as a contiguous
run inside the haystack character list? -/
def charsContain (needle : List Char) : List Char → Bool
  | [] => needle.isEmpty
  | c :: cs => needle.isPrefixOf (c :: cs) || charsContain needle cs

/-- Model of JavaScript `hay.includes(needle)`. -/
def jsIncludes (hay needle : String) : Bool := charsContain needle.data hay.data

/-- Process-local override map (`rateLimitOverrides : Map<string, boolean>`). -/
abbrev OMap := List (String × Bool)

/-- Model of `rateLimitOverrides.get(id)` used in a boolean position:
`Map.get` yields `undefined` for a missing key, which is falsy. -/
def omapGet (m : OMap) (k : String) : Bool := (m.lookup k).getD false

/-- Model of `rateLimitOverrides.set(k, v)`. -/
def omapSet (m : OMap) (k : String) (v : Bool) : OMap :=
  m.filter (fun p => !(p.1 == k)) ++ [(k, v)]

/-- The shared Redis store, keyed by `rate-limit:<identifier>`. -/
abbrev Store := List (String × KeyState)

/-- Key state read from the store; a key never written reads as empty. -/
def storeGet (s : Store) (k : String) : KeyState := (s.lookup k).getD emptyKeyState

/-- Store after the round trips of one `check` call wrote key `k`. -/
def storeSet (s : Store) (k : String) (v : KeyState) : Store :=
  s.filter (fun p => !(p.1 == k)) ++ [(k, v)]

/-- Response header list, with `Headers.set` replace-on-write semantics. -/
abbrev RespHeaders := List (String × String)

/-- Model of `headers.set(name, value)`. -/
def setHeader (hs : RespHeaders) (name value : String) : RespHeaders :=
  hs.filter (fun p => !(p.1 == name)) ++ [(name, value)]

/-- Model of `headers.get(name)`. -/
def getHeader (hs : RespHeaders) (name : String) : Option String := hs.lookup name

/-- HTTP response model: status, headers, body text. -/
structure ResponseModel where
  status : Nat
  headers : RespHeaders
  body : String
  deriving Repr, DecidableEq

/-- Inbound HTTP request model.  `bodyJson` is the result of `request.json()`
for admin requests: `none` when the body is not parseable JSON. -/
structure RequestModel where
  method : String
  pathname : String
  authHeader : Option String
  origin : Option String
  contentType : Option String
  bodyJson : Option Json
  sourceIp : Option String

/-- JSON object text with a single string field, as produced by the
source's `JSON.stringify` calls on one-field payloads. -/
def jsonField (name value : String) : String :=
  "\x7b\"" ++ name ++ "\":\"" ++ value ++ "\"\x7d"

/-- Model of `addCorsHeaders(response, request)`: sets the four CORS headers,
echoing the configured origin when it matches and falling back to `*`. -/
def addCorsHeaders (resp : ResponseModel) (origin : Option String) : ResponseModel :=
  let allowOrigin : String :=
    if origin == some "http://localhost:8080" then "http://localhost:8080" else "*"
  let hs := setHeader resp.headers "Access-Control-Allow-Origin" allowOrigin
  let hs := setHeader hs "Access-Control-Allow-Methods" "GET, POST, OPTIONS"
  let hs := setHeader hs "Access-Control-Allow-Headers" "Content-Type, Authorization"
  let hs := setHeader hs "Access-Control-Expose-Headers" "Retry-After, X-Rate-Limit-Exceeded"
  { resp with headers := hs }

/-- Tier table `rateLimitConfigs` from the server source. -/
def rateLimitConfigs : List (String × RateLimitConfig) :=
  [("free", ⟨5000, 5⟩), ("premium", ⟨5000, 10⟩)]

/-- Role selection `getUserRole` from the server source: the `premium-`
prefix selects the premium tier, everything else is `free`. -/
def getUserRole (identifier : String) : String :=
  if jsStartsWith identifier "premium-" then "premium" else "free"

/-- Limiter lookup `rateLimiters[userRole] || rateLimiters["free"]`. -/
def lookupRateLimiter (userRole : String) : Option RateLimitConfig :=
  (rateLimitConfigs.lookup userRole).orElse (fun _ => rateLimitConfigs.lookup "free")

/-- Identifier resolution of `handleRequest`: a `Bearer` token from the
`Authorization` header (flagged as a client id), else the connection's
source address, else nothing. -/
def resolveIdentifier (req : RequestModel) : Option (String × Bool) :=
  match req.authHeader with
  | some h =>
      if jsStartsWith h "Bearer " then some (jsDrop h 7, true)
      else req.sourceIp.map (fun ip => (ip, false))
  | none => req.sourceIp.map (fun ip => (ip, false))

/-- The 429 response built in `handleRequest`'s `RateLimitExceeded` branch.
The `Retry-After` header is set under `if (error.retryAfter)`, so it is
skipped both when the estimate is absent and when it is the falsy `0`. -/
def rateLimitedResponse (e : RateLimitExceeded) : ResponseModel :=
  let hs : RespHeaders := [("X-Rate-Limit-Exceeded", "true")]
  let hs :=
    match e.retryAfter with
    | some r => if r = 0 then hs else setHeader hs "Retry-After" (toString r)
    | none => hs
  ⟨429, hs, "Too Many Requests"⟩

/-- Outcome of the store round trips during one request: they all succeed,
one of them fails with a `RedisError`, or the fiber dies with some other
defect.  This injects the failure cases the dispatcher must convert. -/
inductive StoreBehavior where
  | ok
  | redisFail
  | defect
  deriving Repr, DecidableEq

/-- Observable result of `handleRequest`: the response, the store left
behind, whether the limiter was invoked, and the resolved identifier with
its client-id flag (ghost trace of the dispatcher's local variables). -/
structure HandleResult where
  response : ResponseModel
  store : Store
  limiterInvoked : Bool
  identifier : Option (String × Bool)
  deriving Repr, DecidableEq

/-- Model of `handleRequest` from the server source: preflight, identifier
resolution, override bypass for client ids, tier selection, the limiter
call, and the rendering of every outcome into a CORS-equipped response. -/
def handleRequest (req : RequestModel) (overrides : OMap) (now : Int) (nonce : String)
    (beh : StoreBehavior) (store : Store) : HandleResult :=
  if req.method == "OPTIONS" then
    ⟨addCorsHeaders ⟨204, [], ""⟩ req.origin, store, false, none⟩
  else
    match resolveIdentifier req with
    | none =>
        ⟨addCorsHeaders ⟨400, [], "Bad Request: Missing identifier"⟩ req.origin,
          store, false, none⟩
    | some (identifier, isClientId) =>
        if isClientId && omapGet overrides identifier then
          ⟨addCorsHeaders ⟨200, [("X-Rate-Limit-Remaining", "Overridden")],
              "Success (Override Active)"⟩ req.origin,
            store, false, some (identifier, isClientId)⟩
        else
          let userRole := getUserRole identifier
          match lookupRateLimiter userRole with
          | none =>
              ⟨addCorsHeaders ⟨500, [], "Internal Server Error - Limiter Config"⟩ req.origin,
                store, false, some (identifier, isClientId)⟩
          | some cfg =>
              match beh with
              | .redisFail =>
                  ⟨addCorsHeaders ⟨500, [], "Internal Server Error - Rate Limit Check Failed"⟩
                      req.origin,
                    store, true, some (identifier, isClientId)⟩
              | .defect =>
                  ⟨addCorsHeaders ⟨500, [], "Internal Server Error"⟩ req.origin,
                    store, true, some (identifier, isClientId)⟩
              | .ok =>
                  let key := getKey identifier
                  let r := check cfg identifier now nonce (storeGet store key)
                  match r.outcome with
                  | .ok _ =>
                      ⟨addCorsHeaders ⟨200, [("X-Rate-Limit-Remaining", "Available")],
                          "Success (Role: " ++ userRole ++ ")"⟩ req.origin,
                        storeSet store key r.state, true, some (identifier, isClientId)⟩
                  | .error e =>
                      ⟨addCorsHeaders (rateLimitedResponse e) req.origin,
                        storeSet store key r.state, true, some (identifier, isClientId)⟩

/-- Tagged admin pipeline failures, from adminHandler. -/
inductive AdminError where
  | InvalidContentTypeError (providedType : String)
  | JsonParseError
  | InvalidRequestBodyError (body : Json)

/-- Body validator `isValidBody` of `validateAdminBodyManual`: the parsed
value must be a non-null object carrying `clientId : string` and
`override : boolean`; the validated fields are returned. -/
def validAdminBody : Json → Option (String × Bool)
  | .obj fields =>
      match fields.lookup "clientId", fields.lookup "override" with
      | some (.str clientId), some (.bool override) => some (clientId, override)
      | _, _ => none
  | _ => none

/-- Model of `handleAdminOverrideRequest`: content-type gate, JSON parse,
schema validation, then the override-map write.  Returns the outcome and
the override map after the request. -/
def handleAdminOverrideRequest (req : RequestModel) (overrides : OMap) :
    Except AdminError (String × Bool) × OMap :=
  let contentType := req.contentType.getD ""
  if !(jsIncludes contentType "application/json") then
    (.error (.InvalidContentTypeError contentType), overrides)
  else
    match req.bodyJson with
    | none => (.error .JsonParseError, overrides)
    | some rawBody =>
        match validAdminBody rawBody with
        | none => (.error (.InvalidRequestBodyError rawBody), overrides)
        | some (clientId, override) =>
            (.ok (clientId, override), omapSet overrides clientId override)

/-- Success payload `createSuccessResponse` of the admin pipeline. -/
def createSuccessResponse (clientId : String) (override : Bool) : ResponseModel :=
  ⟨200, [("Content-Type", "application/json")],
    jsonField "message"
      ("Override for " ++ clientId ++ " set to " ++ (if override then "true" else "false") ++ ".")⟩

/-- Error rendering of the admin route in `main`'s `catchTags`: 415 for a
bad content type (echoing the provided value), 400 for a parse failure,
400 for a schema failure. -/
def renderAdminError (e : AdminError) : ResponseModel :=
  match e with
  | .InvalidContentTypeError providedType =>
      ⟨415, [("Content-Type", "application/json")],
        jsonField "error" ("Content-Type must be application/json. Provided: " ++ providedType)⟩
  | .JsonParseError =>
      ⟨400, [("Content-Type", "application/json")],
        jsonField "error" "Failed to parse JSON body"⟩
  | .InvalidRequestBodyError _ =>
      ⟨400, [("Content-Type", "application/json")],
        jsonField "error" "Invalid request body format"⟩

/-- Result of the top-level `fetch` dispatch: the response plus the
process-local override map and the shared store after the request. -/
structure FetchResult where
  response : ResponseModel
  overrides : OMap
  store : Store

/-- Model of `main`'s `fetch`: the admin route (with its error mapping and
its last-resort 500) or the catch-all admission dispatcher. -/
def serverFetch (req : RequestModel) (overrides : OMap) (now : Int) (nonce : String)
    (beh : StoreBehavior) (store : Store) : FetchResult :=
  if req.pathname == "/admin/override-rate-limit" && req.method == "POST" then
    match beh with
    | .defect =>
        ⟨addCorsHeaders ⟨500, [("Content-Type", "application/json")],
            jsonField "error" "Failed to process request"⟩ req.origin,
          overrides, store⟩
    | _ =>
        match handleAdminOverrideRequest req overrides with
        | (.ok (clientId, override), overrides1) =>
            ⟨addCorsHeaders (createSuccessResponse clientId override) req.origin,
              overrides1, store⟩
        | (.error e, overrides1) =>
            ⟨addCorsHeaders (renderAdminError e) req.origin, overrides1, store⟩
  else
    let h := handleRequest req overrides now nonce beh store
    ⟨h.response, overrides, h.store⟩

example :
    (handleRequest ⟨"GET", "/", some "Bearer premium-x", none, none, none, none⟩
        [] 1000 "a" .ok []).response.status = 200 := by decide

example :
    (handleRequest ⟨"GET", "/", some "Bearer c2", none, none, none, none⟩
        [("c2", true)] 1000 "a" .ok []).response.body = "Success (Override Active)" := by decide

/-! Helper lemmas about the store operations, the header operations and the
ceiling arithmetic, shared by the claim theorems below. -/

lemma mem_zremrangebyscore {s : ZSet} {mn mx : Int} {e : ZEntry} :
    e ∈ zremrangebyscore s mn mx ↔ e ∈ s ∧ ¬(mn ≤ e.score ∧ e.score ≤ mx) := by
  simp only [zremrangebyscore, List.mem_filter, Bool.not_eq_true', Bool.and_eq_false_iff,
    decide_eq_false_iff_not, not_le, not_and]
  constructor
  · rintro ⟨hm, hc⟩
    exact ⟨hm, by omega⟩
  · rintro ⟨hm, hc⟩
    exact ⟨hm, by omega⟩

lemma zremrangebyscore_eq_self {s : ZSet} {mn mx : Int}
    (h : ∀ e ∈ s, ¬(mn ≤ e.score ∧ e.score ≤ mx)) :
    zremrangebyscore s mn mx = s := by
  apply List.filter_eq_self.mpr
  intro e he
  have := h e he
  simp only [Bool.not_eq_true', Bool.and_eq_false_iff, decide_eq_false_iff_not, not_le]
  omega

lemma mem_purgeExpired {w now : Int} {s : ZSet} {e : ZEntry} :
    e ∈ purgeExpired w now s ↔ e ∈ s ∧ ¬(0 ≤ e.score ∧ e.score ≤ now - w) :=
  mem_zremrangebyscore

lemma purgeExpired_subset {w now : Int} {s : ZSet} {e : ZEntry}
    (h : e ∈ purgeExpired w now s) : e ∈ s :=
  (mem_purgeExpired.mp h).1

lemma purgeExpired_eq_self {w now : Int} {s : ZSet}
    (h : ∀ e ∈ s, ¬(0 ≤ e.score ∧ e.score ≤ now - w)) :
    purgeExpired w now s = s :=
  zremrangebyscore_eq_self h

lemma zadd_fresh {s : ZSet} {sc : Int} {m : String} (h : ∀ e ∈ s, e.member ≠ m) :
    zadd s sc m = s ++ [⟨m, sc⟩] := by
  have hany : s.any (fun e => e.member == m) = false := by
    rw [List.any_eq_false]
    intro e he
    simpa using h e he
  simp [zadd, hany]

lemma foldl_zmin_mem (es : List ZEntry) (a : ZEntry) :
    es.foldl (fun acc x => if zleB x acc then x else acc) a = a ∨
      es.foldl (fun acc x => if zleB x acc then x else acc) a ∈ es := by
  induction es generalizing a with
  | nil => exact Or.inl rfl
  | cons x xs ih =>
    simp only [List.foldl_cons]
    by_cases hx : zleB x a = true
    · rw [if_pos hx]
      rcases ih x with h | h
      · rw [h]; exact Or.inr (List.mem_cons_self x xs)
      · exact Or.inr (List.mem_cons_of_mem x h)
    · rw [if_neg hx]
      rcases ih a with h | h
      · exact Or.inl h
      · exact Or.inr (List.mem_cons_of_mem x h)

lemma zmin_mem {s : ZSet} {e : ZEntry} (h : zmin s = some e) : e ∈ s := by
  cases s with
  | nil => simp [zmin] at h
  | cons x xs =>
    simp only [zmin, Option.some.injEq] at h
    rcases foldl_zmin_mem xs x with h2 | h2
    · rw [h] at h2; rw [h2]; exact List.mem_cons_self x xs
    · rw [h] at h2; exact List.mem_cons_of_mem x h2

lemma getHeader_setHeader_self (hs : RespHeaders) (name value : String) :
    getHeader (setHeader hs name value) name = some value := by
  induction hs with
  | nil => simp [getHeader, setHeader, List.lookup]
  | cons p ps ih =>
    by_cases h : p.1 = name
    · have hb : (p.1 == name) = true := by simpa using h
      simpa [setHeader, List.filter, hb] using ih
    · have hb : (p.1 == name) = false := by simpa using h
      have hb2 : (name == p.1) = false := by
        simp only [beq_eq_false_iff_ne]
        exact fun hc => h hc.symm
      simp only [setHeader, List.filter, hb] at ih ⊢
      simpa [getHeader, List.lookup, hb2] using ih

lemma getHeader_setHeader_ne (hs : RespHeaders) (name value other : String)
    (hne : other ≠ name) :
    getHeader (setHeader hs name value) other = getHeader hs other := by
  have hon : (other == name) = false := by simpa using hne
  induction hs with
  | nil => simp [getHeader, setHeader, List.lookup, hon]
  | cons p ps ih =>
    by_cases h : p.1 = name
    · have hb : (p.1 == name) = true := by simpa using h
      have hop : (other == p.1) = false := by
        simp only [beq_eq_false_iff_ne]
        exact fun hc => hne (hc.trans h)
      simp only [setHeader, List.filter, hb] at ih ⊢
      simp only [getHeader, List.lookup, hop] at ih ⊢
      exact ih
    · have hb : (p.1 == name) = false := by simpa using h
      simp only [setHeader, List.filter, hb] at ih ⊢
      by_cases hop : other = p.1
      · have hb2 : (other == p.1) = true := by simpa using hop
        simp [getHeader, List.lookup, hb2]
      · have hb2 : (other == p.1) = false := by simpa using hop
        simp only [getHeader, List.lookup, hb2] at ih ⊢
        exact ih

lemma addCorsHeaders_status (resp : ResponseModel) (origin : Option String) :
    (addCorsHeaders resp origin).status = resp.status := rfl

lemma addCorsHeaders_body (resp : ResponseModel) (origin : Option String) :
    (addCorsHeaders resp origin).body = resp.body := rfl

lemma addCorsHeaders_cors (resp : ResponseModel) (origin : Option String) :
    getHeader (addCorsHeaders resp origin).headers "Access-Control-Allow-Methods"
        = some "GET, POST, OPTIONS" ∧
      getHeader (addCorsHeaders resp origin).headers "Access-Control-Allow-Headers"
        = some "Content-Type, Authorization" ∧
      getHeader (addCorsHeaders resp origin).headers "Access-Control-Expose-Headers"
        = some "Retry-After, X-Rate-Limit-Exceeded" ∧
      (getHeader (addCorsHeaders resp origin).headers "Access-Control-Allow-Origin").isSome
        = true := by
  unfold addCorsHeaders
  refine ⟨?_, ?_, ?_, ?_⟩
  · rw [getHeader_setHeader_ne _ _ _ _ (by decide),
      getHeader_setHeader_ne _ _ _ _ (by decide), getHeader_setHeader_self]
  · rw [getHeader_setHeader_ne _ _ _ _ (by decide), getHeader_setHeader_self]
  · rw [getHeader_setHeader_self]
  · rw [getHeader_setHeader_ne _ _ _ _ (by decide),
      getHeader_setHeader_ne _ _ _ _ (by decide),
      getHeader_setHeader_ne _ _ _ _ (by decide), getHeader_setHeader_self]
    rfl

lemma getHeader_addCorsHeaders_other (resp : ResponseModel) (origin : Option String)
    (name : String)
    (h1 : name ≠ "Access-Control-Allow-Origin")
    (h2 : name ≠ "Access-Control-Allow-Methods")
    (h3 : name ≠ "Access-Control-Allow-Headers")
    (h4 : name ≠ "Access-Control-Expose-Headers") :
    getHeader (addCorsHeaders resp origin).headers name = getHeader resp.headers name := by
  unfold addCorsHeaders
  rw [getHeader_setHeader_ne _ _ _ _ h4, getHeader_setHeader_ne _ _ _ _ h3,
    getHeader_setHeader_ne _ _ _ _ h2, getHeader_setHeader_ne _ _ _ _ h1]

lemma jsCeilDiv1000_pos {x : Int} (h : 1 ≤ x) : 1 ≤ jsCeilDiv1000 x := by
  unfold jsCeilDiv1000
  have h1 : (1000 : Int) ≤ x + 999 := by omega
  have h2 := Int.ediv_le_ediv (by norm_num : (0:Int) < 1000) h1
  simpa using h2

lemma check_admit_eq (cfg : RateLimitConfig) (clientId : String) (now : Int) (nonce : String)
    (st : KeyState)
    (h : zcard (purgeExpired cfg.windowMs now st.entries) < cfg.maxRequests) :
    check cfg clientId now nonce st =
      ⟨.ok (), ⟨zadd (purgeExpired cfg.windowMs now st.entries) now (mkMember now nonce),
        some (cfg.windowMs + 1000)⟩⟩ := by
  simp only [check]
  rw [if_neg (by omega)]

lemma check_deny_eq (cfg : RateLimitConfig) (clientId : String) (now : Int) (nonce : String)
    (st : KeyState)
    (h : cfg.maxRequests ≤ zcard (purgeExpired cfg.windowMs now st.entries)) :
    check cfg clientId now nonce st =
      ⟨.error ⟨clientId,
          match zmin (purgeExpired cfg.windowMs now st.entries) with
          | some oldest =>
              if oldest.score = 0 then none
              else some (max 0 (jsCeilDiv1000 (oldest.score + cfg.windowMs - now)))
          | none => none⟩,
        ⟨purgeExpired cfg.windowMs now st.entries, st.ttlMs⟩⟩ := by
  simp only [check]
  rw [if_pos h]

lemma check_deny_retryAfter (cfg : RateLimitConfig) (clientId : String) (now : Int)
    (nonce : String) (st : KeyState) (e : RateLimitExceeded)
    (hnn : ∀ x ∈ st.entries, 0 ≤ x.score)
    (herr : (check cfg clientId now nonce st).outcome = .error e) :
    e.retryAfter = none ∨ ∃ r, e.retryAfter = some r ∧ 1 ≤ r := by
  by_cases h : cfg.maxRequests ≤ zcard (purgeExpired cfg.windowMs now st.entries)
  · rw [check_deny_eq cfg clientId now nonce st h] at herr
    simp only [Except.error.injEq] at herr
    subst herr
    cases hz : zmin (purgeExpired cfg.windowMs now st.entries) with
    | none => left; simp [hz]
    | some oldest =>
        by_cases hsc : oldest.score = 0
        · left; simp [hz, hsc]
        · right
          refine ⟨max 0 (jsCeilDiv1000 (oldest.score + cfg.windowMs - now)), by simp [hz, hsc], ?_⟩
          have hmem := zmin_mem hz
          have hsurv := (mem_purgeExpired.mp hmem).2
          have hin := purgeExpired_subset hmem
          have h0 : 0 ≤ oldest.score := hnn oldest hin
          have hgt : now - cfg.windowMs < oldest.score := by omega
          have : (1 : Int) ≤ oldest.score + cfg.windowMs - now := by omega
          have := jsCeilDiv1000_pos this
          omega
  · rw [check_admit_eq cfg clientId now nonce st (by omega)] at herr
    simp at herr

/-- C1: after a successful `check`, the identifier's set contains no entry
with score older than `now - windowMs` and exactly one new entry with score
`now` and the unique member was appended; a `check` that observes at least
`maxRequests` live entries after the purge fails with `RateLimitExceeded`
carrying that identifier and appends nothing.  The hypotheses record that
the window is positive, that stored scores are admission timestamps (hence
non-negative), and that the random member is fresh. -/
theorem C1_check_invariant (cfg : RateLimitConfig) (clientId : String) (now : Int)
    (nonce : String) (st : KeyState)
    (hW : 0 < cfg.windowMs)
    (hnn : ∀ e ∈ st.entries, 0 ≤ e.score)
    (hfresh : ∀ e ∈ purgeExpired cfg.windowMs now st.entries, e.member ≠ mkMember now nonce) :
    ((purgeExpired cfg.windowMs now st.entries).length < cfg.maxRequests →
      (check cfg clientId now nonce st).outcome = .ok () ∧
      (check cfg clientId now nonce st).state.entries
        = purgeExpired cfg.windowMs now st.entries ++ [⟨mkMember now nonce, now⟩] ∧
      (∀ e ∈ (check cfg clientId now nonce st).state.entries, ¬ e.score < now - cfg.windowMs)) ∧
    (cfg.maxRequests ≤ (purgeExpired cfg.windowMs now st.entries).length →
      (∃ ra, (check cfg clientId now nonce st).outcome = .error ⟨clientId, ra⟩) ∧
      (check cfg clientId now nonce st).state.entries
        = purgeExpired cfg.windowMs now st.entries) := by
  constructor
  · intro hlt
    rw [check_admit_eq cfg clientId now nonce st (by simpa [zcard] using hlt)]
    refine ⟨rfl, ?_, ?_⟩
    · exact zadd_fresh (fun e he => hfresh e he)
    · rw [zadd_fresh (fun e he => hfresh e he)]
      intro e he
      rcases List.mem_append.mp he with h1 | h1
      · have hsurv := (mem_purgeExpired.mp h1).2
        have h0 : 0 ≤ e.score := hnn e (purgeExpired_subset h1)
        omega
      · have : e = ⟨mkMember now nonce, now⟩ := by simpa using h1
        rw [this]
        simp only
        omega
  · intro hge
    rw [check_deny_eq cfg clientId now nonce st (by simpa [zcard] using hge)]
    exact ⟨⟨_, rfl⟩, rfl⟩

/-- Closed instance of `C1_check_invariant`: from an empty window, a check
with limit 2 admits and appends the single fresh entry. -/
theorem C1_check_invariant_witness :
    (check ⟨5000, 2⟩ "c1" 1000 "n" emptyKeyState).outcome = .ok () ∧
      (check ⟨5000, 2⟩ "c1" 1000 "n" emptyKeyState).state.entries
        = [⟨mkMember 1000 "n", 1000⟩] := by
  have h := C1_check_invariant ⟨5000, 2⟩ "c1" 1000 "n" emptyKeyState
    (by decide) (by intro e he; simp [emptyKeyState] at he) (by intro e he; simp [purgeExpired, zremrangebyscore, emptyKeyState] at he)
  have h2 := h.1 (by decide)
  exact ⟨h2.1, by rw [h2.2.1]; rfl⟩

/-- C8 counterexample: with `now = 6000` and `windowMs = 5000` the cutoff is
`1000`.  An entry scored exactly `1000` — not strictly below the cutoff — is
nevertheless removed by the purge step, because the source issues
`ZREMRANGEBYSCORE key 0 windowStart` with plain numeric bounds, which Redis
treats as inclusive on both ends. -/
theorem C8_purge_strict_cex :
    ¬ ((1000 : Int) < 6000 - 5000) ∧
      ZEntry.mk "m" 1000 ∉ purgeExpired 5000 6000 [⟨"m", 1000⟩] := by decide

/-- C8 amended: the purge step of `check` removes exactly the entries with
score less than or equal to `now - windowMs` (the removal range is the
inclusive interval `[0, now - windowMs]`, and admission-timestamp scores
are non-negative); every entry with score strictly above the cutoff
remains. -/
theorem C8_purge_inclusive (cfg : RateLimitConfig) (now : Int) (st : KeyState)
    (hnn : ∀ e ∈ st.entries, 0 ≤ e.score) :
    ∀ e ∈ st.entries,
      (e ∈ purgeExpired cfg.windowMs now st.entries ↔ now - cfg.windowMs < e.score) := by
  intro e he
  rw [mem_purgeExpired]
  have h0 := hnn e he
  constructor
  · rintro ⟨_, hc⟩
    omega
  · intro h
    exact ⟨he, by omega⟩

/-- Closed instance of `C8_purge_inclusive`: the boundary entry at the
cutoff score is removed while a fresher entry survives. -/
theorem C8_purge_inclusive_witness :
    (ZEntry.mk "m" 1000 ∈ purgeExpired 5000 6000 [⟨"m", 1000⟩, ⟨"b", 1001⟩]
        ↔ (6000 : Int) - 5000 < 1000) ∧
      ZEntry.mk "b" 1001 ∈ purgeExpired 5000 6000 [⟨"m", 1000⟩, ⟨"b", 1001⟩] := by
  have h := C8_purge_inclusive ⟨5000, 5⟩ 6000 ⟨[⟨"m", 1000⟩, ⟨"b", 1001⟩], none⟩
    (by intro e he; simp only [List.mem_cons, List.not_mem_nil, or_false] at he
        rcases he with rfl | rfl <;> decide)
  exact ⟨h ⟨"m", 1000⟩ (by decide), (h ⟨"b", 1001⟩ (by decide)).mpr (by decide)⟩

/-- C10: a denied `check` still mutates the store — the purge has already
run before the denial, so the state after a denial is exactly the purged
set with the expiry untouched (only the append and the expiry refresh are
withheld); and concretely a denial can leave the set different from the
one it started with. -/
theorem C10_deny_still_purges :
    (∀ (cfg : RateLimitConfig) (clientId : String) (now : Int) (nonce : String)
        (st : KeyState) (e : RateLimitExceeded),
      (check cfg clientId now nonce st).outcome = .error e →
        (check cfg clientId now nonce st).state.entries
            = purgeExpired cfg.windowMs now st.entries ∧
          (check cfg clientId now nonce st).state.ttlMs = st.ttlMs) ∧
    ((check ⟨5000, 1⟩ "c" 6000 "n" ⟨[⟨"a", 10⟩, ⟨"b", 6000⟩], none⟩).outcome
        = .error ⟨"c", some 5⟩ ∧
      (check ⟨5000, 1⟩ "c" 6000 "n" ⟨[⟨"a", 10⟩, ⟨"b", 6000⟩], none⟩).state.entries
        = [⟨"b", 6000⟩] ∧
      (check ⟨5000, 1⟩ "c" 6000 "n" ⟨[⟨"a", 10⟩, ⟨"b", 6000⟩], none⟩).state.entries
        ≠ [⟨"a", 10⟩, ⟨"b", 6000⟩]) := by
  constructor
  · intro cfg clientId now nonce st e herr
    by_cases h : cfg.maxRequests ≤ zcard (purgeExpired cfg.windowMs now st.entries)
    · rw [check_deny_eq cfg clientId now nonce st h]
      exact ⟨rfl, rfl⟩
    · rw [check_admit_eq cfg clientId now nonce st (by omega)] at herr
      simp at herr
  · exact ⟨by decide, by decide, by decide⟩

/-- Closed instance of `C10_deny_still_purges`: the concrete denial leaves
exactly the purged entries behind with the expiry unchanged. -/
theorem C10_deny_still_purges_witness :
    (check ⟨5000, 1⟩ "c" 6000 "n" ⟨[⟨"a", 10⟩, ⟨"b", 6000⟩], none⟩).state.entries
        = purgeExpired 5000 6000 [⟨"a", 10⟩, ⟨"b", 6000⟩] ∧
      (check ⟨5000, 1⟩ "c" 6000 "n" ⟨[⟨"a", 10⟩, ⟨"b", 6000⟩], none⟩).state.ttlMs = none :=
  C10_deny_still_purges.1 ⟨5000, 1⟩ "c" 6000 "n" ⟨[⟨"a", 10⟩, ⟨"b", 6000⟩], none⟩
    ⟨"c", some 5⟩ (by decide)

/-- C3 counterexample: a denial whose ascending range read does return an
oldest entry (scored `0`, which survives the purge because the removal
range `[0, now - windowMs]` is empty when `now < windowMs`), yet the
failure omits `retryAfter` — the source guards the computation with the
JavaScript truthiness test `oldestTimestamp ? ... : undefined`, which
treats the number `0` like the not-found case — while the claimed formula
would give `max 0 (ceil((0 + 5000 - 100) / 1000)) = 5`. -/
theorem C3_retryAfter_cex :
    zmin (purgeExpired 5000 100 [⟨"m", 0⟩]) = some ⟨"m", 0⟩ ∧
      max 0 (jsCeilDiv1000 ((0 : Int) + 5000 - 100)) = 5 ∧
      (check ⟨5000, 1⟩ "c" 100 "n" ⟨[⟨"m", 0⟩], none⟩).outcome = .error ⟨"c", none⟩ := by
  decide

/-- C3 amended: on a denial, if the range read returns an oldest entry with
nonzero score then the failure carries
`retryAfter = max 0 (ceil((oldestScore + windowMs - now) / 1000))`, a
non-negative integer; if no entry is returned — or the oldest score is the
falsy number `0` — `retryAfter` is omitted. -/
theorem C3_retryAfter_amended (cfg : RateLimitConfig) (clientId : String) (now : Int)
    (nonce : String) (st : KeyState) (e : RateLimitExceeded)
    (herr : (check cfg clientId now nonce st).outcome = .error e) :
    (∀ oldest, zmin (purgeExpired cfg.windowMs now st.entries) = some oldest →
        oldest.score ≠ 0 →
        e.retryAfter = some (max 0 (jsCeilDiv1000 (oldest.score + cfg.windowMs - now)))) ∧
      (∀ oldest, zmin (purgeExpired cfg.windowMs now st.entries) = some oldest →
        oldest.score = 0 → e.retryAfter = none) ∧
      (zmin (purgeExpired cfg.windowMs now st.entries) = none → e.retryAfter = none) ∧
      (∀ r, e.retryAfter = some r → 0 ≤ r) := by
  by_cases h : cfg.maxRequests ≤ zcard (purgeExpired cfg.windowMs now st.entries)
  · rw [check_deny_eq cfg clientId now nonce st h] at herr
    simp only [Except.error.injEq] at herr
    subst herr
    refine ⟨?_, ?_, ?_, ?_⟩
    · intro oldest hz hsc
      simp [hz, hsc]
    · intro oldest hz hsc
      simp [hz, hsc]
    · intro hz
      simp [hz]
    · intro r hr
      cases hz : zmin (purgeExpired cfg.windowMs now st.entries) with
      | none => simp [hz] at hr
      | some oldest =>
          by_cases hsc : oldest.score = 0
          · simp [hz, hsc] at hr
          · simp only [hz, hsc, if_false] at hr
            have : max 0 (jsCeilDiv1000 (oldest.score + cfg.windowMs - now)) = r := by
              simpa using hr
            omega
  · rw [check_admit_eq cfg clientId now nonce st (by omega)] at herr
    simp at herr

/-- Closed instance of `C3_retryAfter_amended`: a denial over a purged set
whose oldest surviving entry is scored `6000` carries the formula value. -/
theorem C3_retryAfter_amended_witness :
    (RateLimitExceeded.mk "c" (some 5)).retryAfter
      = some (max 0 (jsCeilDiv1000 ((6000 : Int) + 5000 - 6000))) :=
  (C3_retryAfter_amended ⟨5000, 1⟩ "c" 6000 "n" ⟨[⟨"a", 10⟩, ⟨"b", 6000⟩], none⟩
      ⟨"c", some 5⟩ (by decide)).1 ⟨"b", 6000⟩ (by decide) (by decide)

lemma handleRequest_bad_request_eq (req : RequestModel) (overrides : OMap) (now : Int)
    (nonce : String) (beh : StoreBehavior) (store : Store)
    (hm : req.method ≠ "OPTIONS")
    (hid : resolveIdentifier req = none) :
    handleRequest req overrides now nonce beh store =
      ⟨addCorsHeaders ⟨400, [], "Bad Request: Missing identifier"⟩ req.origin,
        store, false, none⟩ := by
  have hmb : (req.method == "OPTIONS") = false := by simpa using hm
  simp only [handleRequest, hmb, Bool.false_eq_true, if_false, hid]

lemma handleRequest_bypass_eq (req : RequestModel) (overrides : OMap) (now : Int)
    (nonce : String) (beh : StoreBehavior) (store : Store) (identifier : String)
    (hm : req.method ≠ "OPTIONS")
    (hid : resolveIdentifier req = some (identifier, true))
    (hov : omapGet overrides identifier = true) :
    handleRequest req overrides now nonce beh store =
      ⟨addCorsHeaders ⟨200, [("X-Rate-Limit-Remaining", "Overridden")],
          "Success (Override Active)"⟩ req.origin,
        store, false, some (identifier, true)⟩ := by
  have hmb : (req.method == "OPTIONS") = false := by simpa using hm
  simp only [handleRequest, hmb, Bool.false_eq_true, if_false, hid, hov, Bool.and_self,
    if_true, Bool.true_and]

lemma handleRequest_limited_eq (req : RequestModel) (overrides : OMap) (now : Int)
    (nonce : String) (beh : StoreBehavior) (store : Store) (identifier : String)
    (isClientId : Bool) (cfg : RateLimitConfig)
    (hm : req.method ≠ "OPTIONS")
    (hid : resolveIdentifier req = some (identifier, isClientId))
    (hov : (isClientId && omapGet overrides identifier) = false)
    (hcfg : lookupRateLimiter (getUserRole identifier) = some cfg) :
    handleRequest req overrides now nonce beh store =
      match beh with
      | .redisFail =>
          ⟨addCorsHeaders ⟨500, [], "Internal Server Error - Rate Limit Check Failed"⟩
              req.origin,
            store, true, some (identifier, isClientId)⟩
      | .defect =>
          ⟨addCorsHeaders ⟨500, [], "Internal Server Error"⟩ req.origin,
            store, true, some (identifier, isClientId)⟩
      | .ok =>
          match (check cfg identifier now nonce (storeGet store (getKey identifier))).outcome with
          | .ok _ =>
              ⟨addCorsHeaders ⟨200, [("X-Rate-Limit-Remaining", "Available")],
                  "Success (Role: " ++ getUserRole identifier ++ ")"⟩ req.origin,
                storeSet store (getKey identifier)
                  (check cfg identifier now nonce (storeGet store (getKey identifier))).state,
                true, some (identifier, isClientId)⟩
          | .error e =>
              ⟨addCorsHeaders (rateLimitedResponse e) req.origin,
                storeSet store (getKey identifier)
                  (check cfg identifier now nonce (storeGet store (getKey identifier))).state,
                true, some (identifier, isClientId)⟩ := by
  have hmb : (req.method == "OPTIONS") = false := by simpa using hm
  simp only [handleRequest, hmb, Bool.false_eq_true, if_false, hid, hov, hcfg]

lemma lookupRateLimiter_getUserRole (identifier : String) :
    lookupRateLimiter (getUserRole identifier)
      = some (if jsStartsWith identifier "premium-" = true then ⟨5000, 10⟩ else ⟨5000, 5⟩) := by
  unfold getUserRole
  by_cases h : jsStartsWith identifier "premium-" = true
  · rw [if_pos h, if_pos h]
    decide
  · rw [if_neg h, if_neg h]
    decide

lemma handleRequest_identifier (req : RequestModel) (overrides : OMap) (now : Int)
    (nonce : String) (beh : StoreBehavior) (store : Store)
    (hm : req.method ≠ "OPTIONS") :
    (handleRequest req overrides now nonce beh store).identifier = resolveIdentifier req := by
  cases hid : resolveIdentifier req with
  | none => rw [handleRequest_bad_request_eq req overrides now nonce beh store hm hid]
  | some p =>
      obtain ⟨identifier, isClientId⟩ := p
      by_cases hov : (isClientId && omapGet overrides identifier) = true
      · have hcid : isClientId = true := by
          cases isClientId
          · simp at hov
          · rfl
        subst hcid
        rw [handleRequest_bypass_eq req overrides now nonce beh store identifier hm hid
          (by simpa using hov)]
      · rw [handleRequest_limited_eq req overrides now nonce beh store identifier isClientId
          (if jsStartsWith identifier "premium-" = true then ⟨5000, 10⟩ else ⟨5000, 5⟩)
          hm hid (by simpa using hov) (lookupRateLimiter_getUserRole identifier)]
        cases beh
        · cases hchk :
            (check (if jsStartsWith identifier "premium-" = true then ⟨5000, 10⟩ else ⟨5000, 5⟩)
              identifier now nonce (storeGet store (getKey identifier))).outcome <;> rfl
        · rfl
        · rfl

/-- C7: for every non-OPTIONS request, the identifier is the token when the
`Authorization` header has the `Bearer ` form; otherwise it is the source
address; and when neither a token nor an address is resolvable, the
response status is 400 and no identifier is recorded. -/
theorem C7_identifier_resolution (req : RequestModel) (overrides : OMap) (now : Int)
    (nonce : String) (beh : StoreBehavior) (store : Store)
    (hm : req.method ≠ "OPTIONS") :
    (∀ h, req.authHeader = some h → jsStartsWith h "Bearer " = true →
      (handleRequest req overrides now nonce beh store).identifier
        = some (jsDrop h 7, true)) ∧
    ((match req.authHeader with
        | some h => jsStartsWith h "Bearer " = false
        | none => True) →
      (∀ ip, req.sourceIp = some ip →
        (handleRequest req overrides now nonce beh store).identifier = some (ip, false)) ∧
      (req.sourceIp = none →
        (handleRequest req overrides now nonce beh store).response.status = 400 ∧
        (handleRequest req overrides now nonce beh store).identifier = none)) := by
  refine ⟨?_, ?_⟩
  · intro h hauth hbw
    rw [handleRequest_identifier req overrides now nonce beh store hm]
    simp [resolveIdentifier, hauth, hbw]
  · intro hnb
    constructor
    · intro ip hip
      rw [handleRequest_identifier req overrides now nonce beh store hm]
      cases hauth : req.authHeader with
      | none => simp [resolveIdentifier, hauth, hip]
      | some h =>
          rw [hauth] at hnb
          have hb : jsStartsWith h "Bearer " = false := by simpa using hnb
          simp [resolveIdentifier, hauth, hb, hip]
    · intro hip
      have hid : resolveIdentifier req = none := by
        cases hauth : req.authHeader with
        | none => simp [resolveIdentifier, hauth, hip]
        | some h =>
            rw [hauth] at hnb
            have hb : jsStartsWith h "Bearer " = false := by simpa using hnb
            simp [resolveIdentifier, hauth, hb, hip]
      rw [handleRequest_bad_request_eq req overrides now nonce beh store hm hid]
      exact ⟨rfl, rfl⟩

/-- Closed instance of `C7_identifier_resolution`: a Bearer header resolves
to the token with the client-id flag set. -/
theorem C7_identifier_resolution_witness :
    (handleRequest ⟨"GET", "/", some "Bearer tok", none, none, none, none⟩
        [] 5 "n" .ok []).identifier = some (jsDrop "Bearer tok" 7, true) :=
  (C7_identifier_resolution ⟨"GET", "/", some "Bearer tok", none, none, none, none⟩
      [] 5 "n" .ok [] (by decide)).1 "Bearer tok" rfl (by decide)

/-- C5: a token-derived identifier whose override flag is true gets the
bypass response (200, `X-Rate-Limit-Remaining: Overridden`) without the
limiter being invoked and with the store untouched; and for requests with
no Bearer token (address-derived identification) the override map is never
consulted — the whole dispatch result is identical for any two override
maps. -/
theorem C5_override_bypass_frame :
    (∀ (req : RequestModel) (overrides : OMap) (now : Int) (nonce : String)
        (beh : StoreBehavior) (store : Store) (h : String),
      req.method ≠ "OPTIONS" →
      req.authHeader = some h → jsStartsWith h "Bearer " = true →
      omapGet overrides (jsDrop h 7) = true →
      (handleRequest req overrides now nonce beh store).response
          = addCorsHeaders ⟨200, [("X-Rate-Limit-Remaining", "Overridden")],
              "Success (Override Active)"⟩ req.origin ∧
        (handleRequest req overrides now nonce beh store).store = store ∧
        (handleRequest req overrides now nonce beh store).limiterInvoked = false) ∧
    (∀ (req : RequestModel) (o1 o2 : OMap) (now : Int) (nonce : String)
        (beh : StoreBehavior) (store : Store) (ip : String),
      (match req.authHeader with
        | some h => jsStartsWith h "Bearer " = false
        | none => True) →
      req.sourceIp = some ip →
      handleRequest req o1 now nonce beh store = handleRequest req o2 now nonce beh store) := by
  constructor
  · intro req overrides now nonce beh store h hm hauth hbw hov
    have hid : resolveIdentifier req = some (jsDrop h 7, true) := by
      simp [resolveIdentifier, hauth, hbw]
    rw [handleRequest_bypass_eq req overrides now nonce beh store (jsDrop h 7) hm hid hov]
    exact ⟨rfl, rfl, rfl⟩
  · intro req o1 o2 now nonce beh store ip hnb hip
    by_cases hm : req.method = "OPTIONS"
    · have hmb : (req.method == "OPTIONS") = true := by simpa using hm
      simp only [handleRequest, hmb, if_true]
    · have hid : resolveIdentifier req = some (ip, false) := by
        cases hauth : req.authHeader with
        | none => simp [resolveIdentifier, hauth, hip]
        | some h =>
            rw [hauth] at hnb
            have hb : jsStartsWith h "Bearer " = false := by simpa using hnb
            simp [resolveIdentifier, hauth, hb, hip]
      rw [handleRequest_limited_eq req o1 now nonce beh store ip false
          (if jsStartsWith ip "premium-" = true then ⟨5000, 10⟩ else ⟨5000, 5⟩)
          hm hid (by simp) (lookupRateLimiter_getUserRole ip),
        handleRequest_limited_eq req o2 now nonce beh store ip false
          (if jsStartsWith ip "premium-" = true then ⟨5000, 10⟩ else ⟨5000, 5⟩)
          hm hid (by simp) (lookupRateLimiter_getUserRole ip)]

/-- Closed instance of `C5_override_bypass_frame`: with the override set,
the bypass leaves the store untouched and skips the limiter. -/
theorem C5_override_bypass_frame_witness :
    (handleRequest ⟨"GET", "/", some "Bearer c2", none, none, none, none⟩
          [("c2", true)] 5 "n" .ok []).store = ([] : Store) ∧
      (handleRequest ⟨"GET", "/", some "Bearer c2", none, none, none, none⟩
          [("c2", true)] 5 "n" .ok []).limiterInvoked = false := by
  have h := (C5_override_bypass_frame.1 ⟨"GET", "/", some "Bearer c2", none, none, none, none⟩
    [("c2", true)] 5 "n" .ok [] "Bearer c2" (by decide) rfl (by decide) (by decide))
  exact ⟨h.2.1, h.2.2⟩

/-- C4: a request whose rate-limit check is denied gets a 429 response with
the `X-Rate-Limit-Exceeded: true` header, and the `Retry-After` header is
present exactly when the `RateLimitExceeded` failure carries a `retryAfter`
value (which, for denials computed over admission-timestamp scores, is
always at least 1 and so never dropped by the renderer's truthiness test). -/
theorem C4_denied_response (req : RequestModel) (overrides : OMap) (now : Int)
    (nonce : String) (store : Store) (identifier : String) (isClientId : Bool)
    (cfg : RateLimitConfig) (e : RateLimitExceeded)
    (hm : req.method ≠ "OPTIONS")
    (hid : resolveIdentifier req = some (identifier, isClientId))
    (hov : (isClientId && omapGet overrides identifier) = false)
    (hcfg : lookupRateLimiter (getUserRole identifier) = some cfg)
    (hnn : ∀ x ∈ (storeGet store (getKey identifier)).entries, 0 ≤ x.score)
    (herr : (check cfg identifier now nonce (storeGet store (getKey identifier))).outcome
        = .error e) :
    (handleRequest req overrides now nonce .ok store).response.status = 429 ∧
      getHeader (handleRequest req overrides now nonce .ok store).response.headers
        "X-Rate-Limit-Exceeded" = some "true" ∧
      ((getHeader (handleRequest req overrides now nonce .ok store).response.headers
          "Retry-After").isSome ↔ e.retryAfter.isSome) := by
  have heq : (handleRequest req overrides now nonce .ok store).response
      = addCorsHeaders (rateLimitedResponse e) req.origin := by
    rw [handleRequest_limited_eq req overrides now nonce .ok store identifier isClientId cfg
      hm hid hov hcfg]
    simp only [herr]
  refine ⟨?_, ?_, ?_⟩
  · rw [heq, addCorsHeaders_status]
    rfl
  · rw [heq, getHeader_addCorsHeaders_other _ _ _ (by decide) (by decide) (by decide) (by decide)]
    cases hra : e.retryAfter with
    | none => simp [rateLimitedResponse, hra, getHeader, List.lookup]
    | some r =>
        by_cases hr0 : r = 0
        · simp [rateLimitedResponse, hra, hr0, getHeader, List.lookup]
        · simp only [rateLimitedResponse, hra]
          rw [if_neg hr0]
          rw [getHeader_setHeader_ne _ _ _ _ (by decide)]
          rfl
  · rw [heq, getHeader_addCorsHeaders_other _ _ _ (by decide) (by decide) (by decide) (by decide)]
    rcases check_deny_retryAfter cfg identifier now nonce (storeGet store (getKey identifier))
        e hnn herr with hra | ⟨r, hra, hr1⟩
    · simp [rateLimitedResponse, hra, getHeader, List.lookup]
    · have hr0 : r ≠ 0 := by omega
      simp only [rateLimitedResponse, hra]
      rw [if_neg hr0, getHeader_setHeader_self]
      simp

/-- Closed instance of `C4_denied_response`: a full window of five entries
denies the sixth request with a 429, the exceedance header, and a
`Retry-After` exactly matching the carried estimate. -/
theorem C4_denied_response_witness :
    (handleRequest ⟨"GET", "/", some "Bearer x", none, none, none, none⟩ [] 6000 "n" .ok
          [("rate-limit:x", ⟨[⟨"a", 2000⟩, ⟨"b", 2001⟩, ⟨"c", 2002⟩, ⟨"d", 2003⟩, ⟨"e", 2004⟩],
            none⟩)]).response.status = 429 ∧
      ((getHeader (handleRequest ⟨"GET", "/", some "Bearer x", none, none, none, none⟩
            [] 6000 "n" .ok
            [("rate-limit:x", ⟨[⟨"a", 2000⟩, ⟨"b", 2001⟩, ⟨"c", 2002⟩, ⟨"d", 2003⟩, ⟨"e", 2004⟩],
              none⟩)]).response.headers "Retry-After").isSome
        ↔ (some (1 : Int)).isSome) := by
  have h := C4_denied_response ⟨"GET", "/", some "Bearer x", none, none, none, none⟩ [] 6000 "n"
    [("rate-limit:x", ⟨[⟨"a", 2000⟩, ⟨"b", 2001⟩, ⟨"c", 2002⟩, ⟨"d", 2003⟩, ⟨"e", 2004⟩], none⟩)]
    "x" true ⟨5000, 5⟩ ⟨"x", some 1⟩
    (by decide) (by decide) (by decide) (by decide) (by decide) (by decide)
  exact ⟨h.1, h.2.2⟩

lemma handleRequest_response_cors (req : RequestModel) (overrides : OMap) (now : Int)
    (nonce : String) (beh : StoreBehavior) (store : Store) :
    ∃ resp, (handleRequest req overrides now nonce beh store).response
      = addCorsHeaders resp req.origin := by
  simp only [handleRequest]
  repeat' split
  all_goals exact ⟨_, rfl⟩

/-- C9: the dispatcher is total — for every inbound request, every override
map, every store content and every store behaviour (all round trips
succeeding, a store failure, or any other defect), it produces a response,
and that response always carries the CORS headers: `Allow-Methods`,
`Allow-Headers`, the `Expose-Headers` entry naming the rate-limit headers,
and an `Allow-Origin` value. -/
theorem C9_always_cors (req : RequestModel) (overrides : OMap) (now : Int) (nonce : String)
    (beh : StoreBehavior) (store : Store) :
    getHeader (serverFetch req overrides now nonce beh store).response.headers
        "Access-Control-Allow-Methods" = some "GET, POST, OPTIONS" ∧
      getHeader (serverFetch req overrides now nonce beh store).response.headers
        "Access-Control-Allow-Headers" = some "Content-Type, Authorization" ∧
      getHeader (serverFetch req overrides now nonce beh store).response.headers
        "Access-Control-Expose-Headers" = some "Retry-After, X-Rate-Limit-Exceeded" ∧
      (getHeader (serverFetch req overrides now nonce beh store).response.headers
        "Access-Control-Allow-Origin").isSome = true := by
  obtain ⟨resp, hresp⟩ : ∃ resp, (serverFetch req overrides now nonce beh store).response
      = addCorsHeaders resp req.origin := by
    simp only [serverFetch]
    split
    · repeat' split
      all_goals exact ⟨_, rfl⟩
    · exact handleRequest_response_cors req overrides now nonce beh store
  rw [hresp]
  exact addCorsHeaders_cors resp req.origin

/-- C6: the admin override-mutation pipeline validates in order — a
Content-Type not including `application/json` fails with a content-type
error carrying the provided value, rendered as 415; an unparseable body
fails with a parse error, rendered as 400; a parsed value rejected by the
schema check fails with a schema error carrying the rejected value,
rendered as 400; only on success is `override.set(clientId, override)`
applied and a success payload echoing the identifier and the new flag
returned; on every failure the override map is unchanged.  The final
conjunct characterises the schema check: it accepts exactly the objects
carrying `clientId : string` and `override : boolean`. -/
theorem C6_admin_pipeline (req : RequestModel) (overrides : OMap) :
    (jsIncludes (req.contentType.getD "") "application/json" = false →
      handleAdminOverrideRequest req overrides
          = (.error (.InvalidContentTypeError (req.contentType.getD "")), overrides) ∧
        (renderAdminError (.InvalidContentTypeError (req.contentType.getD ""))).status = 415) ∧
    (jsIncludes (req.contentType.getD "") "application/json" = true → req.bodyJson = none →
      handleAdminOverrideRequest req overrides = (.error .JsonParseError, overrides) ∧
        (renderAdminError .JsonParseError).status = 400) ∧
    (∀ j, jsIncludes (req.contentType.getD "") "application/json" = true →
      req.bodyJson = some j → validAdminBody j = none →
      handleAdminOverrideRequest req overrides
          = (.error (.InvalidRequestBodyError j), overrides) ∧
        (renderAdminError (.InvalidRequestBodyError j)).status = 400) ∧
    (∀ j clientId override, jsIncludes (req.contentType.getD "") "application/json" = true →
      req.bodyJson = some j → validAdminBody j = some (clientId, override) →
      handleAdminOverrideRequest req overrides
          = (.ok (clientId, override), omapSet overrides clientId override) ∧
        (createSuccessResponse clientId override).status = 200 ∧
        (createSuccessResponse clientId override).body
          = jsonField "message" ("Override for " ++ clientId ++ " set to "
              ++ (if override then "true" else "false") ++ ".")) ∧
    (∀ fields clientId override,
      validAdminBody (.obj fields) = some (clientId, override) ↔
        (fields.lookup "clientId" = some (.str clientId) ∧
          fields.lookup "override" = some (.bool override))) := by
  refine ⟨?_, ?_, ?_, ?_, ?_⟩
  · intro hct
    exact ⟨by simp [handleAdminOverrideRequest, hct], rfl⟩
  · intro hct hb
    exact ⟨by simp [handleAdminOverrideRequest, hct, hb], rfl⟩
  · intro j hct hb hv
    exact ⟨by simp [handleAdminOverrideRequest, hct, hb, hv], rfl⟩
  · intro j clientId override hct hb hv
    exact ⟨by simp [handleAdminOverrideRequest, hct, hb, hv], rfl, rfl⟩
  · intro fields clientId override
    constructor
    · intro hv
      simp only [validAdminBody] at hv
      split at hv
      · rename_i c b hc ho
        simp only [Option.some.injEq, Prod.mk.injEq] at hv
        obtain ⟨rfl, rfl⟩ := hv
        exact ⟨hc, ho⟩
      · simp at hv
    · rintro ⟨hc, ho⟩
      simp [validAdminBody, hc, ho]

/-- Closed instance of `C6_admin_pipeline`: a well-formed admin request
writes the override flag and leaves the expected success payload. -/
theorem C6_admin_pipeline_witness :
    handleAdminOverrideRequest
        ⟨"POST", "/admin/override-rate-limit", none, none, some "application/json",
          some (.obj [("clientId", .str "c2"), ("override", .bool true)]), none⟩ []
        = (.ok ("c2", true), omapSet [] "c2" true) ∧
      (createSuccessResponse "c2" true).status = 200 := by
  have h := (C6_admin_pipeline
    ⟨"POST", "/admin/override-rate-limit", none, none, some "application/json",
      some (.obj [("clientId", .str "c2"), ("override", .bool true)]), none⟩ []).2.2.2.1
    (.obj [("clientId", .str "c2"), ("override", .bool true)]) "c2" true rfl rfl rfl
  exact ⟨h.1, h.2.1⟩

/-- Boolean outcome of one check: `true` when the request was admitted. -/
def isAdmit : Except RateLimitExceeded Unit → Bool
  | .ok _ => true
  | .error _ => false

/-- Sequential `check` calls for one identifier: folds over a list of
(time, nonce) pairs threading the key state, collecting each outcome. -/
def runChecks (cfg : RateLimitConfig) (clientId : String) :
    List (Int × String) → KeyState → List Bool × KeyState
  | [], st => ([], st)
  | p :: rest, st =>
      let r := check cfg clientId p.1 p.2 st
      let next := runChecks cfg clientId rest r.state
      (isAdmit r.outcome :: next.1, next.2)

lemma check_admit_eq2 (cfg : RateLimitConfig) (clientId : String) (now : Int) (nonce : String)
    (entries : ZSet) (ttl : Option Int)
    (h : zcard (purgeExpired cfg.windowMs now entries) < cfg.maxRequests) :
    check cfg clientId now nonce ⟨entries, ttl⟩ =
      ⟨.ok (), ⟨zadd (purgeExpired cfg.windowMs now entries) now (mkMember now nonce),
        some (cfg.windowMs + 1000)⟩⟩ :=
  check_admit_eq cfg clientId now nonce ⟨entries, ttl⟩ h

lemma check_deny_eq2 (cfg : RateLimitConfig) (clientId : String) (now : Int) (nonce : String)
    (entries : ZSet) (ttl : Option Int)
    (h : cfg.maxRequests ≤ zcard (purgeExpired cfg.windowMs now entries)) :
    check cfg clientId now nonce ⟨entries, ttl⟩ =
      ⟨.error ⟨clientId,
          match zmin (purgeExpired cfg.windowMs now entries) with
          | some oldest =>
              if oldest.score = 0 then none
              else some (max 0 (jsCeilDiv1000 (oldest.score + cfg.windowMs - now)))
          | none => none⟩,
        ⟨purgeExpired cfg.windowMs now entries, ttl⟩⟩ :=
  check_deny_eq cfg clientId now nonce ⟨entries, ttl⟩ h

lemma runChecks_outcomes (cfg : RateLimitConfig) (clientId : String)
    (ps : List (Int × String)) (acc : ZSet) (ttl : Option Int)
    (hspan1 : ∀ e ∈ acc, ∀ q ∈ ps, q.1 - e.score < cfg.windowMs)
    (hspan2 : ∀ p ∈ ps, ∀ q ∈ ps, q.1 - p.1 < cfg.windowMs)
    (hfresh1 : ∀ e ∈ acc, ∀ q ∈ ps, e.member ≠ mkMember q.1 q.2)
    (hfresh2 : (ps.map (fun q => mkMember q.1 q.2)).Pairwise (fun a b => a ≠ b)) :
    (runChecks cfg clientId ps ⟨acc, ttl⟩).1
      = (List.range ps.length).map (fun i => decide (acc.length + i < cfg.maxRequests)) := by
  revert hspan1 hspan2 hfresh1 hfresh2
  induction ps generalizing acc ttl with
  | nil => intro _ _ _ _; rfl
  | cons p rest ih =>
    intro hspan1 hspan2 hfresh1 hfresh2
    have hpurge : purgeExpired cfg.windowMs p.1 acc = acc := by
      apply purgeExpired_eq_self
      intro e he
      have := hspan1 e he p (List.mem_cons_self p rest)
      omega
    have hfreshhead : ∀ e ∈ acc, e.member ≠ mkMember p.1 p.2 :=
      fun e he => hfresh1 e he p (List.mem_cons_self p rest)
    rw [List.map_cons] at hfresh2
    have hpw := List.pairwise_cons.mp hfresh2
    rw [List.length_cons, List.range_succ_eq_map, List.map_cons, List.map_map]
    by_cases hcnt : cfg.maxRequests ≤ acc.length
    · have hde := check_deny_eq2 cfg clientId p.1 p.2 acc ttl
        (by simpa [zcard, hpurge] using hcnt)
      rw [hpurge] at hde
      simp only [runChecks, hde, isAdmit]
      congr 1
      · symm
        exact decide_eq_false (by omega)
      · rw [ih acc ttl
          (fun e he q hq => hspan1 e he q (List.mem_cons_of_mem p hq))
          (fun a ha q hq => hspan2 a (List.mem_cons_of_mem p ha) q (List.mem_cons_of_mem p hq))
          (fun e he q hq => hfresh1 e he q (List.mem_cons_of_mem p hq))
          hpw.2]
        apply List.map_congr_left
        intro i hi
        simp only [Function.comp]
        exact decide_eq_decide.mpr (by omega)
    · have had := check_admit_eq2 cfg clientId p.1 p.2 acc ttl
        (by simp only [zcard, hpurge]; omega)
      rw [hpurge, zadd_fresh hfreshhead] at had
      simp only [runChecks, had, isAdmit]
      congr 1
      · symm
        exact decide_eq_true (by omega)
      · have h1 : ∀ e ∈ acc ++ [(⟨mkMember p.1 p.2, p.1⟩ : ZEntry)], ∀ q ∈ rest,
            q.1 - e.score < cfg.windowMs := by
          intro e he q hq
          rcases List.mem_append.mp he with h | h
          · exact hspan1 e h q (List.mem_cons_of_mem p hq)
          · have he2 : e = ⟨mkMember p.1 p.2, p.1⟩ := by simpa using h
            rw [he2]
            exact hspan2 p (List.mem_cons_self p rest) q (List.mem_cons_of_mem p hq)
        have h3 : ∀ e ∈ acc ++ [(⟨mkMember p.1 p.2, p.1⟩ : ZEntry)], ∀ q ∈ rest,
            e.member ≠ mkMember q.1 q.2 := by
          intro e he q hq
          rcases List.mem_append.mp he with h | h
          · exact hfresh1 e h q (List.mem_cons_of_mem p hq)
          · have he2 : e = ⟨mkMember p.1 p.2, p.1⟩ := by simpa using h
            rw [he2]
            exact hpw.1 (mkMember q.1 q.2) (List.mem_map_of_mem _ hq)
        have ihx := ih (acc ++ [(⟨mkMember p.1 p.2, p.1⟩ : ZEntry)]) (some (cfg.windowMs + 1000))
          h1
          (fun a ha q hq => hspan2 a (List.mem_cons_of_mem p ha) q (List.mem_cons_of_mem p hq))
          h3 hpw.2
        rw [ihx]
        apply List.map_congr_left
        intro i hi
        simp only [Function.comp, List.length_append, List.length_cons, List.length_nil]
        exact decide_eq_decide.mpr (by omega)

/-- C2: tier selection is by prefix — an identifier starting with
`premium-` selects the premium configuration (5000 ms window, 10 requests)
and every other identifier the free configuration (5000 ms window,
5 requests); consequently any run of 11 checks by `premium-x` within one
5-second span (with distinct random members) admits the first 10 and
denies the 11th, and any run of 6 checks by `x` admits the first 5 and
denies the 6th. -/
theorem C2_tiers_and_limits :
    (∀ identifier, lookupRateLimiter (getUserRole identifier)
        = some (if jsStartsWith identifier "premium-" = true
            then ⟨5000, 10⟩ else ⟨5000, 5⟩)) ∧
    (∀ ps : List (Int × String), ps.length = 11 →
      (∀ p ∈ ps, ∀ q ∈ ps, q.1 - p.1 < 5000) →
      (ps.map (fun q => mkMember q.1 q.2)).Pairwise (fun a b => a ≠ b) →
      (runChecks ⟨5000, 10⟩ "premium-x" ps emptyKeyState).1
        = List.replicate 10 true ++ [false]) ∧
    (∀ ps : List (Int × String), ps.length = 6 →
      (∀ p ∈ ps, ∀ q ∈ ps, q.1 - p.1 < 5000) →
      (ps.map (fun q => mkMember q.1 q.2)).Pairwise (fun a b => a ≠ b) →
      (runChecks ⟨5000, 5⟩ "x" ps emptyKeyState).1
        = List.replicate 5 true ++ [false]) := by
  refine ⟨lookupRateLimiter_getUserRole, ?_, ?_⟩
  · intro ps hlen hspan hfresh
    rw [show emptyKeyState = (⟨[], none⟩ : KeyState) from rfl,
      runChecks_outcomes ⟨5000, 10⟩ "premium-x" ps [] none
        (by intro e he; simp at he) hspan (by intro e he; simp at he) hfresh,
      hlen]
    decide
  · intro ps hlen hspan hfresh
    rw [show emptyKeyState = (⟨[], none⟩ : KeyState) from rfl,
      runChecks_outcomes ⟨5000, 5⟩ "x" ps [] none
        (by intro e he; simp at he) hspan (by intro e he; simp at he) hfresh,
      hlen]
    decide

/-- Closed instance of `C2_tiers_and_limits`: the premium tier is selected
for `premium-x`, which is admitted 10 times and denied on the 11th within
one window, while `x` on the free tier is admitted 5 times and denied on
the 6th. -/
theorem C2_tiers_and_limits_witness :
    lookupRateLimiter (getUserRole "premium-x") = some ⟨5000, 10⟩ ∧
      (runChecks ⟨5000, 10⟩ "premium-x"
          [(0, "a"), (0, "b"), (0, "c"), (0, "d"), (0, "e"), (0, "f"), (0, "g"), (0, "h"),
            (0, "i"), (0, "j"), (0, "k")] emptyKeyState).1
        = List.replicate 10 true ++ [false] ∧
      (runChecks ⟨5000, 5⟩ "x" [(0, "a"), (0, "b"), (0, "c"), (0, "d"), (0, "e"), (0, "f")]
          emptyKeyState).1 = List.replicate 5 true ++ [false] := by
  refine ⟨?_, ?_, ?_⟩
  · have hc : jsStartsWith "premium-x" "premium-" = true := by decide
    have h := C2_tiers_and_limits.1 "premium-x"
    rw [hc] at h
    simpa using h
  · exact C2_tiers_and_limits.2.1 _ (by decide) (by decide) (by decide)
  · exact C2_tiers_and_limits.2.2 _ (by decide) (by decide) (by decide)
